import Mathlib

/-!
Shallow embedding of the chunked-upload core of `src/main.py`
(QR_photo_upload).  The web-framework plumbing (FastAPI routing, form
parsing, the thread pool) is abstracted away; the state that the handlers
read and write (the in-memory `upload_sessions` dict, the chunk files under
`CHUNK_DIR`, the assembled files under `UPLOAD_DIR`) is made explicit as a
`ServerState` record, and each handler becomes a pure state transformer.
Gzip is modelled abstractly: a chunk blob is either a valid gzip stream
with a known decompressed payload, or bytes that are not a gzip stream
(Python's `gzip.open(...).read()` succeeds on the former and raises on the
latter).  Bytes are `List Nat`.
-/

namespace QRUpload

/-- Configuration constant `UPLOAD_DIR` from `main.py`. -/
def UPLOAD_DIR : String := "/Users/raj/Documents/GitHub/QR_photo_upload/uploads"

/-- Configuration constant `MAX_FILE_SIZE = 1024 * 1024 * 1024` (1GB). -/
def MAX_FILE_SIZE : Nat := 1024 * 1024 * 1024

/-- Configuration constant `CHUNK_SIZE = 5 * 1024 * 1024` (5MB). -/
def CHUNK_SIZE : Nat := 5 * 1024 * 1024

/-- `ALLOWED_EXTENSIONS` dict from `main.py` (category to extension list). -/
def ALLOWED_EXTENSIONS : List (String × List String) :=
  [("image", ["jpg", "jpeg", "png", "gif", "webp"]),
   ("video", ["mp4", "webm", "mov", "avi"])]

/-- Model of `os.path.join` restricted to the relative-second-argument case
used in `main.py`. -/
def pathJoin (a b : String) : String := a ++ "/" ++ b

/-- A chunk blob as stored on disk.  `gzipped p` is a valid gzip stream whose
decompressed content is `p`; `rawNonGzip b` is a byte string that is not a
valid gzip stream (no `1f 8b` magic / not decodable). -/
inductive Blob where
  | gzipped (payload : List Nat)
  | rawNonGzip (bytes : List Nat)
deriving DecidableEq

/-- Model of `gzip.open(path).read()`: succeeds exactly on valid gzip
streams, raising `BadGzipFile` otherwise. -/
def gunzip : Blob → Except String (List Nat)
  | .gzipped p => .ok p
  | .rawNonGzip _ => .error "BadGzipFile"

/-- Model of the assembly loop body of `assemble_file`: gunzip each chunk in
order and concatenate, failing if any chunk is not a gzip stream. -/
def gunzipConcat : List Blob → Except String (List Nat)
  | [] => .ok []
  | b :: bs =>
    match gunzip b with
    | .error e => .error e
    | .ok p =>
      match gunzipConcat bs with
      | .error e => .error e
      | .ok rest => .ok (p ++ rest)

/-- One entry of the `upload_sessions` dict.  Entries created by
`start_upload` carry `filename` and `guest`; entries created implicitly by
`save_chunk` lack both keys, modelled with `Option`. -/
structure Session where
  filename : Option String
  guest : Option String
  total_chunks : Nat
  received_chunks : Finset Nat
  created_at : Nat
deriving DecidableEq

/-- The server-visible mutable state: the `upload_sessions` dict, the chunk
files on disk (keyed by upload id and chunk index, per `get_chunk_path`),
and the assembled files (keyed by guest directory name and file name). -/
structure ServerState where
  sessions : String → Option Session
  chunks : String → Nat → Option Blob
  files : String → String → Option (List Nat)

/-- The state with no sessions, no chunk files and no assembled files. -/
def initialState : ServerState :=
  { sessions := fun _ => none, chunks := fun _ _ => none, files := fun _ _ => none }

/-- Characters matched by Python's `\s` (ASCII range). -/
def isPythonSpace (c : Char) : Bool :=
  c = ' ' || c = '\t' || c = '\n' || c = '\r' || c = '\x0b' || c = '\x0c'

/-- Characters matched by Python's `\w` (ASCII range): alphanumerics and
underscore. -/
def isWordChar (c : Char) : Bool := c.isAlphanum || c = '_'

/-- Characters NOT removed by `re.sub(r'[^\w\s-]', '', name)`. -/
def keepChar (c : Char) : Bool := isWordChar c || isPythonSpace c || c = '-'

/-- Characters matched by `[\s-]`. -/
def isSpaceOrHyphen (c : Char) : Bool := isPythonSpace c || c = '-'

/-- Model of Python's `str.strip()`: drop leading and trailing whitespace. -/
def stripChars (l : List Char) : List Char :=
  ((l.dropWhile isPythonSpace).reverse.dropWhile isPythonSpace).reverse

/-- Model of `re.sub(r'[\s-]+', '_', s)`: each maximal run of whitespace or
hyphen characters becomes a single underscore.  The boolean argument records
whether the previous character was part of such a run. -/
def collapseRuns : Bool → List Char → List Char
  | _, [] => []
  | inRun, c :: rest =>
    if isSpaceOrHyphen c then
      if inRun then collapseRuns true rest
      else '_' :: collapseRuns true rest
    else c :: collapseRuns false rest

/-- `sanitize_filename` from `main.py`:
`re.sub(r'[\s-]+', '_', re.sub(r'[^\w\s-]', '', name).strip())`. -/
def sanitize_filename (name : String) : String :=
  String.mk (collapseRuns false (stripChars (name.data.filter keepChar)))

/-- Final path component of a slash-separated path: model of
`os.path.basename` (and of `pathlib`'s final component for names without a
trailing slash). -/
def basename (p : String) : String :=
  String.mk ((p.data.reverse.takeWhile (fun c => c ≠ '/')).reverse)

/-- Index of the last `'.'` in a character list, if any. -/
def lastDotIdx : List Char → Option Nat
  | [] => none
  | c :: rest =>
    match lastDotIdx rest with
    | some i => some (i + 1)
    | none => if c = '.' then some 0 else none

/-- `get_file_extension` from `main.py`: `Path(filename).suffix[1:].lower()`.
`pathlib` takes the final component's text after its last dot, provided that
dot is neither the first nor the last character of the component. -/
def get_file_extension (filename : String) : String :=
  let name := (basename filename).data
  match lastDotIdx name with
  | some i =>
    if 0 < i ∧ i < name.length - 1 then
      String.mk ((name.drop (i + 1)).map Char.toLower)
    else ""
  | none => ""

/-- `is_allowed_file` from `main.py`: the extension occurs in some category
of `ALLOWED_EXTENSIONS`. -/
def is_allowed_file (filename : String) : Bool :=
  ALLOWED_EXTENSIONS.any (fun kv => kv.2.contains (get_file_extension filename))

/-- The JSON payload returned by `save_chunk` (status line omitted: it is
the constant string `chunk_uploaded`). -/
structure SaveOk where
  upload_id : String
  chunk : Nat
  received : Nat
  total : Nat
deriving DecidableEq

/-- The JSON payload returned by `start_upload`. -/
structure StartOk where
  upload_id : String
  chunk_size : Nat
deriving DecidableEq

/-- The JSON payload returned by a successful `assemble_file` /
`complete_upload` (status line omitted: constant `complete`). -/
structure AssembleOk where
  path : String
  size : Nat
deriving DecidableEq

/-- Errors raised by the upload handlers.  `sessionNotFound` is the 404 of
the missing-session checks; `missingChunks` is the 400 raised by
`assemble_file`; `assemblyFailed` is the 500 raised when the assembly loop
throws; `keyError` is a Python `KeyError` on a missing dict key; and
`serverError e` is the 500 that `complete_upload`'s blanket
`except Exception` re-raises, wrapping the message of the inner error. -/
inductive Err where
  | sessionNotFound
  | missingChunks (missing : List Nat)
  | assemblyFailed
  | keyError (key : String)
  | serverError (inner : Err)
deriving DecidableEq

/-- `save_chunk` from `main.py`: write the chunk file (overwriting), create
the session entry if the id is unknown (with only `total_chunks`,
`received_chunks` and `created_at`), add the index to the received set, and
report the received count and the session's stored total. -/
def save_chunk (st : ServerState) (upload_id : String) (chunk_index : Nat)
    (chunk_data : Blob) (total_chunks : Nat) (now : Nat) : ServerState × SaveOk :=
  let session0 : Session :=
    match st.sessions upload_id with
    | some s => s
    | none =>
      { filename := none, guest := none, total_chunks := total_chunks,
        received_chunks := ∅, created_at := now }
  let session1 : Session :=
    { session0 with received_chunks := insert chunk_index session0.received_chunks }
  ({ st with
      chunks := fun u i =>
        if u = upload_id ∧ i = chunk_index then some chunk_data else st.chunks u i,
      sessions := fun u => if u = upload_id then some session1 else st.sessions u },
   { upload_id := upload_id, chunk := chunk_index,
     received := session1.received_chunks.card, total := session1.total_chunks })

/-- The `/api/upload/chunk/{upload_id}` handler: reads the request body and
delegates to `save_chunk` (its `try`/`except` never fires in this model,
since `save_chunk` cannot throw). -/
def upload_chunk (st : ServerState) (upload_id : String) (chunk_index : Nat)
    (chunk_data : Blob) (total_chunks : Nat) (now : Nat) : ServerState × SaveOk :=
  save_chunk st upload_id chunk_index chunk_data total_chunks now

/-- The `/api/upload/start` handler: unconditionally registers a fresh
session (no extension or size validation is performed) and returns the id
with the fixed chunk-size hint.  The fresh uuid is passed in as
`upload_id`. -/
def start_upload (st : ServerState) (filename : String) (total_chunks : Nat)
    (guest : String) (upload_id : String) (now : Nat) : ServerState × StartOk :=
  ({ st with
      sessions := fun u =>
        if u = upload_id then
          some { filename := some filename, guest := some guest,
                 total_chunks := total_chunks, received_chunks := ∅,
                 created_at := now }
        else st.sessions u },
   { upload_id := upload_id, chunk_size := CHUNK_SIZE })

/-- Removal of a session's registry entry together with
`shutil.rmtree(chunk_dir)`: the cleanup performed by `assemble_file`'s
`finally` block and by `complete_upload`'s `except` block. -/
def cleanupSession (st : ServerState) (upload_id : String) : ServerState :=
  { st with
      sessions := fun u => if u = upload_id then none else st.sessions u,
      chunks := fun u i => if u = upload_id then none else st.chunks u i }

/-- `assemble_file` from `main.py`.  Looks up the session (404 when absent);
computes the chunk indices in `range total_chunks` missing on disk and fails
with the 400 `missingChunks` error when any are (this path performs NO
cleanup — the `finally` block guards only the assembly loop); otherwise
creates the guest directory from the sanitized guest name, opens the
destination `basename original_filename` for write, and streams the gunzip
of every chunk in ascending index order into it.  If some chunk is not a
gzip stream the partially written destination is removed and the 500
`assemblyFailed` error is raised; in either case the `finally` block purges
the chunk directory and pops the session. -/
def assemble_file (st : ServerState) (upload_id : String)
    (original_filename : String) (guest : String) :
    ServerState × Except Err AssembleOk :=
  match st.sessions upload_id with
  | none => (st, .error .sessionNotFound)
  | some session =>
    let total := session.total_chunks
    let missing := (List.range total).filter (fun i => (st.chunks upload_id i).isNone)
    if missing = [] then
      let guest_dir := sanitize_filename guest
      let fname := basename original_filename
      let blobs := (List.range total).filterMap (st.chunks upload_id)
      let cleaned := cleanupSession st upload_id
      match gunzipConcat blobs with
      | .error _ =>
        ({ cleaned with
            files := fun d f =>
              if d = guest_dir ∧ f = fname then none else st.files d f },
         .error .assemblyFailed)
      | .ok content =>
        ({ cleaned with
            files := fun d f =>
              if d = guest_dir ∧ f = fname then some content else st.files d f },
         .ok { path := pathJoin (pathJoin UPLOAD_DIR guest_dir) fname,
               size := content.length })
    else (st, .error (.missingChunks missing))

/-- The `/api/upload/complete/{upload_id}` handler.  404 when the session is
unknown; otherwise evaluates `session['filename']` and `session['guest']`
(raising `KeyError` for an implicitly created session) and calls
`assemble_file`.  Any exception from the `try` body — the `KeyError`s and
the `HTTPException`s raised inside `assemble_file` alike — is caught by the
blanket `except`, which purges the chunk directory, pops the session, and
re-raises a 500 wrapping the inner error. -/
def complete_upload (st : ServerState) (upload_id : String) :
    ServerState × Except Err AssembleOk :=
  match st.sessions upload_id with
  | none => (st, .error .sessionNotFound)
  | some session =>
    match session.filename with
    | none => (cleanupSession st upload_id, .error (.serverError (.keyError "filename")))
    | some fn =>
      match session.guest with
      | none => (cleanupSession st upload_id, .error (.serverError (.keyError "guest")))
      | some g =>
        match assemble_file st upload_id fn g with
        | (st2, .ok r) => (st2, .ok r)
        | (st2, .error e) => (cleanupSession st2 upload_id, .error (.serverError e))

/-- Test harness: perform one `upload_chunk` call per index of `l`, in list
order, uploading `β i` as the body of chunk `i`. -/
def uploadSeq (upload_id : String) (total_chunks now : Nat) (β : Nat → Blob) :
    ServerState → List Nat → ServerState
  | st, [] => st
  | st, i :: rest =>
    uploadSeq upload_id total_chunks now β
      (upload_chunk st upload_id i (β i) total_chunks now).1 rest

end QRUpload

namespace QRUpload

/-! ### Helper lemmas about the operations -/

lemma upload_chunk_chunks (st : ServerState) (upload_id : String) (idx : Nat)
    (b : Blob) (tc now : Nat) (u : String) (i : Nat) :
    (upload_chunk st upload_id idx b tc now).1.chunks u i =
      if u = upload_id ∧ i = idx then some b else st.chunks u i := by
  simp [upload_chunk, save_chunk]

lemma upload_chunk_files (st : ServerState) (upload_id : String) (idx : Nat)
    (b : Blob) (tc now : Nat) (d f : String) :
    (upload_chunk st upload_id idx b tc now).1.files d f = st.files d f := by
  simp [upload_chunk, save_chunk]

lemma upload_chunk_sessions_some (st : ServerState) (upload_id : String) (idx : Nat)
    (b : Blob) (tc now : Nat) (s : Session) (h : st.sessions upload_id = some s) :
    (upload_chunk st upload_id idx b tc now).1.sessions upload_id =
      some { s with received_chunks := insert idx s.received_chunks } := by
  simp [upload_chunk, save_chunk, h]

lemma upload_chunk_sessions_none (st : ServerState) (upload_id : String) (idx : Nat)
    (b : Blob) (tc now : Nat) (h : st.sessions upload_id = none) :
    (upload_chunk st upload_id idx b tc now).1.sessions upload_id =
      some { filename := none, guest := none, total_chunks := tc,
             received_chunks := insert idx ∅, created_at := now } := by
  simp [upload_chunk, save_chunk, h]

lemma uploadSeq_chunks (upload_id : String) (tc now : Nat) (β : Nat → Blob) :
    ∀ (L : List Nat) (st : ServerState) (u : String) (i : Nat),
      (uploadSeq upload_id tc now β st L).chunks u i =
        if u = upload_id ∧ i ∈ L then some (β i) else st.chunks u i := by
  intro L
  induction L with
  | nil => intro st u i; simp [uploadSeq]
  | cons a L ih =>
    intro st u i
    simp only [uploadSeq]
    rw [ih, upload_chunk_chunks]
    by_cases hu : u = upload_id
    · subst hu
      by_cases hiL : i ∈ L
      · simp [hiL]
      · by_cases hia : i = a
        · subst hia; simp [hiL]
        · simp [hiL, hia]
    · simp [hu]

lemma uploadSeq_files (upload_id : String) (tc now : Nat) (β : Nat → Blob) :
    ∀ (L : List Nat) (st : ServerState) (d f : String),
      (uploadSeq upload_id tc now β st L).files d f = st.files d f := by
  intro L
  induction L with
  | nil => intro st d f; simp [uploadSeq]
  | cons a L ih =>
    intro st d f
    simp only [uploadSeq]
    rw [ih, upload_chunk_files]

lemma uploadSeq_sessions_some (upload_id : String) (tc now : Nat) (β : Nat → Blob) :
    ∀ (L : List Nat) (st : ServerState) (s : Session),
      st.sessions upload_id = some s →
      (uploadSeq upload_id tc now β st L).sessions upload_id =
        some { s with received_chunks := s.received_chunks ∪ L.toFinset } := by
  intro L
  induction L with
  | nil => intro st s h; simp [uploadSeq, h]
  | cons a L ih =>
    intro st s h
    simp only [uploadSeq]
    rw [ih _ _ (upload_chunk_sessions_some st upload_id a (β a) tc now s h)]
    simp [Finset.insert_union, Finset.union_insert]

lemma uploadSeq_sessions_none (upload_id : String) (tc now : Nat) (β : Nat → Blob)
    (L : List Nat) (st : ServerState)
    (h : st.sessions upload_id = none) (hL : L ≠ []) :
    (uploadSeq upload_id tc now β st L).sessions upload_id =
      some { filename := none, guest := none, total_chunks := tc,
             received_chunks := L.toFinset, created_at := now } := by
  cases L with
  | nil => exact absurd rfl hL
  | cons a L =>
    simp only [uploadSeq]
    rw [uploadSeq_sessions_some _ _ _ _ _ _ _
      (upload_chunk_sessions_none st upload_id a (β a) tc now h)]
    simp [Finset.insert_union, ← Finset.insert_eq]

lemma filterMap_eq_map_of_forall_some {α β : Type} (f : α → Option β) (g : α → β) :
    ∀ l : List α, (∀ a ∈ l, f a = some (g a)) → l.filterMap f = l.map g := by
  intro l
  induction l with
  | nil => intro _; rfl
  | cons a l ih =>
    intro h
    rw [List.filterMap_cons, h a (List.mem_cons_self a l), List.map_cons,
      ih (fun x hx => h x (List.mem_cons_of_mem a hx))]

lemma gunzipConcat_gzipped (π : Nat → List Nat) :
    ∀ l : List Nat,
      gunzipConcat (l.map (fun i => Blob.gzipped (π i))) = .ok ((l.map π).flatten) := by
  intro l
  induction l with
  | nil => rfl
  | cons a l ih => simp [gunzipConcat, gunzip, ih]

lemma gunzipConcat_error_of_raw :
    ∀ (blobs : List Blob) (bs : List Nat), Blob.rawNonGzip bs ∈ blobs →
      ∃ m, gunzipConcat blobs = .error m := by
  intro blobs
  induction blobs with
  | nil => intro bs h; exact absurd h (List.not_mem_nil _)
  | cons b blobs ih =>
    intro bs h
    rcases List.mem_cons.mp h with hb | hb
    · subst hb; exact ⟨"BadGzipFile", rfl⟩
    · cases hg : gunzip b with
      | error m => exact ⟨m, by simp [gunzipConcat, hg]⟩
      | ok p =>
        rcases ih bs hb with ⟨m, hm⟩
        exact ⟨m, by simp [gunzipConcat, hg, hm]⟩

end QRUpload

namespace QRUpload

lemma assemble_file_missing_eq (st : ServerState) (upload_id fn g : String) (s : Session)
    (h : st.sessions upload_id = some s)
    (hm : (List.range s.total_chunks).filter (fun i => (st.chunks upload_id i).isNone) ≠ []) :
    assemble_file st upload_id fn g =
      (st, .error (.missingChunks
        ((List.range s.total_chunks).filter (fun i => (st.chunks upload_id i).isNone)))) := by
  unfold assemble_file
  rw [h]
  dsimp only
  rw [if_neg hm]

lemma assemble_file_gzip_success (st : ServerState) (upload_id fn g : String)
    (s : Session) (π : Nat → List Nat)
    (h : st.sessions upload_id = some s)
    (hc : ∀ i, i < s.total_chunks → st.chunks upload_id i = some (Blob.gzipped (π i))) :
    assemble_file st upload_id fn g =
      ({ cleanupSession st upload_id with
          files := fun d f2 =>
            if d = sanitize_filename g ∧ f2 = basename fn then
              some (((List.range s.total_chunks).map π).flatten)
            else st.files d f2 },
       .ok { path := pathJoin (pathJoin UPLOAD_DIR (sanitize_filename g)) (basename fn),
             size := (((List.range s.total_chunks).map π).flatten).length }) := by
  have hmiss : (List.range s.total_chunks).filter
      (fun i => (st.chunks upload_id i).isNone) = [] := by
    rw [List.filter_eq_nil_iff]
    intro a ha
    rw [List.mem_range] at ha
    simp [hc a ha]
  have hblobs : (List.range s.total_chunks).filterMap (st.chunks upload_id) =
      (List.range s.total_chunks).map (fun i => Blob.gzipped (π i)) :=
    filterMap_eq_map_of_forall_some _ _ _ (fun a ha => hc a (List.mem_range.mp ha))
  unfold assemble_file
  rw [h]
  dsimp only
  rw [hmiss, if_pos rfl, hblobs, gunzipConcat_gzipped]

lemma assemble_file_raw_fails (st : ServerState) (upload_id fn g : String)
    (s : Session) (j : Nat) (bs : List Nat)
    (h : st.sessions upload_id = some s)
    (hall : ∀ i, i < s.total_chunks → (st.chunks upload_id i).isSome = true)
    (hj : j < s.total_chunks)
    (hraw : st.chunks upload_id j = some (Blob.rawNonGzip bs)) :
    assemble_file st upload_id fn g =
      ({ cleanupSession st upload_id with
          files := fun d f2 =>
            if d = sanitize_filename g ∧ f2 = basename fn then none
            else st.files d f2 },
       .error .assemblyFailed) := by
  have hmiss : (List.range s.total_chunks).filter
      (fun i => (st.chunks upload_id i).isNone) = [] := by
    rw [List.filter_eq_nil_iff]
    intro a ha
    rw [List.mem_range] at ha
    simp [Option.isNone_iff_eq_none, ← Option.not_isSome_iff_eq_none, hall a ha]
  have hmem : Blob.rawNonGzip bs ∈
      (List.range s.total_chunks).filterMap (st.chunks upload_id) :=
    List.mem_filterMap.mpr ⟨j, List.mem_range.mpr hj, hraw⟩
  rcases gunzipConcat_error_of_raw _ bs hmem with ⟨m, hm⟩
  unfold assemble_file
  rw [h]
  dsimp only
  rw [hmiss, if_pos rfl, hm]

lemma assemble_file_ok_purged (st : ServerState) (upload_id fn g : String)
    (st2 : ServerState) (r : AssembleOk)
    (hA : assemble_file st upload_id fn g = (st2, .ok r)) :
    st2.sessions upload_id = none ∧ ∀ i, st2.chunks upload_id i = none := by
  unfold assemble_file at hA
  split at hA
  · injection hA with h1 h2
    exact Except.noConfusion h2
  · dsimp only at hA
    split at hA
    · split at hA
      · injection hA with h1 h2
        exact Except.noConfusion h2
      · injection hA with h1 h2
        subst h1
        refine ⟨?_, fun i => ?_⟩ <;> simp [cleanupSession]
    · injection hA with h1 h2
      exact Except.noConfusion h2

lemma complete_upload_eq_assemble (st : ServerState) (upload_id fn g : String) (s : Session)
    (h : st.sessions upload_id = some s) (hf : s.filename = some fn)
    (hg : s.guest = some g) :
    complete_upload st upload_id =
      (match assemble_file st upload_id fn g with
       | (st2, .ok r) => (st2, .ok r)
       | (st2, .error e) => (cleanupSession st2 upload_id, .error (.serverError e))) := by
  unfold complete_upload
  rw [h]
  dsimp only
  rw [hf]
  dsimp only
  rw [hg]

end QRUpload

namespace QRUpload

lemma mem_of_mem_dropWhileChars {p : Char → Bool} :
    ∀ l : List Char, ∀ c ∈ l.dropWhile p, c ∈ l := by
  intro l
  induction l with
  | nil => intro c hc; exact absurd hc (List.not_mem_nil c)
  | cons a l ih =>
    intro c hc
    rw [List.dropWhile_cons] at hc
    by_cases hp : p a = true
    · rw [if_pos hp] at hc
      exact List.mem_cons_of_mem a (ih c hc)
    · rw [if_neg hp] at hc
      exact hc

lemma mem_of_mem_stripChars {l : List Char} {c : Char} (h : c ∈ stripChars l) : c ∈ l := by
  unfold stripChars at h
  rw [List.mem_reverse] at h
  have h1 := mem_of_mem_dropWhileChars _ c h
  rw [List.mem_reverse] at h1
  exact mem_of_mem_dropWhileChars _ c h1

lemma collapseRuns_safe :
    ∀ (l : List Char) (b : Bool), (∀ c ∈ l, keepChar c = true) →
      ∀ c ∈ collapseRuns b l, isWordChar c = true ∨ c = '_' := by
  intro l
  induction l with
  | nil => intro b _ c hc; exact absurd hc (List.not_mem_nil c)
  | cons a l ih =>
    intro b hkeep c hc
    have hkeepl : ∀ x ∈ l, keepChar x = true :=
      fun x hx => hkeep x (List.mem_cons_of_mem a hx)
    rw [collapseRuns] at hc
    by_cases hsh : isSpaceOrHyphen a = true
    · rw [if_pos hsh] at hc
      cases b with
      | true => exact ih true hkeepl c hc
      | false =>
        rcases List.mem_cons.mp hc with hcu | hc2
        · exact Or.inr hcu
        · exact ih true hkeepl c hc2
    · rw [if_neg hsh] at hc
      rcases List.mem_cons.mp hc with hca | hc2
      · subst hca
        have hk := hkeep c (List.mem_cons_self c l)
        left
        have hsh2 : isPythonSpace c = false ∧ ¬(c = '-') := by
          simpa [isSpaceOrHyphen] using hsh
        unfold keepChar at hk
        rcases Bool.or_eq_true_iff.mp hk with hk1 | hk2
        · rcases Bool.or_eq_true_iff.mp hk1 with h3 | h4
          · exact h3
          · rw [hsh2.1] at h4
            exact Bool.noConfusion h4
        · exact absurd (of_decide_eq_true hk2) hsh2.2
      · exact ih false hkeepl c hc2

lemma sanitize_filename_chars (name : String) :
    ∀ c ∈ (sanitize_filename name).data, isWordChar c = true ∨ c = '_' := by
  intro c hc
  unfold sanitize_filename at hc
  refine collapseRuns_safe _ false (fun x hx => ?_) c hc
  exact (List.mem_filter.mp (mem_of_mem_stripChars hx)).2

lemma safe_char_all (c : Char) (h : isWordChar c = true ∨ c = '_') :
    ((isWordChar c || c == '_') && !(c == '/') && !(c == '\\') &&
      !(c == '.') && !(isPythonSpace c)) = true := by
  have hslash : (c == '/') = false := by
    cases hq : c == '/'
    · rfl
    · have := eq_of_beq hq
      subst this
      rcases h with h1 | h1
      · exact absurd h1 (by decide)
      · exact absurd h1 (by decide)
  have hback : (c == '\\') = false := by
    cases hq : c == '\\'
    · rfl
    · have := eq_of_beq hq
      subst this
      rcases h with h1 | h1
      · exact absurd h1 (by decide)
      · exact absurd h1 (by decide)
  have hdot : (c == '.') = false := by
    cases hq : c == '.'
    · rfl
    · have := eq_of_beq hq
      subst this
      rcases h with h1 | h1
      · exact absurd h1 (by decide)
      · exact absurd h1 (by decide)
  have hsp : isPythonSpace c = false := by
    cases hq : isPythonSpace c
    · rfl
    · unfold isPythonSpace at hq
      rcases h with h1 | h1
      · simp only [Bool.or_eq_true, decide_eq_true_eq] at hq
        rcases hq with ((((q | q) | q) | q) | q) | q <;>
          (subst q; exact absurd h1 (by decide))
      · subst h1
        exact absurd hq (by decide)
  have hw : (isWordChar c || c == '_') = true := by
    rcases h with h1 | h1
    · simp [h1]
    · subst h1; simp
  rw [hw, hslash, hback, hdot, hsp]
  rfl

end QRUpload

namespace QRUpload

lemma upload_chunk_sessions_point (st : ServerState) (upload_id : String) (idx : Nat)
    (b : Blob) (tc now : Nat) (s : Session)
    (h : st.sessions upload_id = some s) (hm : idx ∈ s.received_chunks) :
    (upload_chunk st upload_id idx b tc now).1.sessions upload_id = some s ∧
    (upload_chunk st upload_id idx b tc now).2.received = s.received_chunks.card := by
  have hins : insert idx s.received_chunks = s.received_chunks :=
    Finset.insert_eq_self.mpr hm
  constructor
  · rw [upload_chunk_sessions_some st upload_id idx b tc now s h, hins]
  · simp [upload_chunk, save_chunk, h, hins]

/-! ### Claim theorems -/

/-- C9: `sanitize_filename` never fails (it is a total function); every
character of its output is a word character or an underscore — so the
output contains no whitespace (leading/trailing whitespace is trimmed away),
no path separator `/` or `\`, and no dot, hence no `..` traversal sequence;
runs of whitespace/hyphens collapse to a single underscore; the empty input
yields the empty string; and the owner name `../../etc` maps to the
traversal-free `etc`. -/
theorem sanitize_filename_ok :
    (∀ name : String,
      ((sanitize_filename name).data.all
        (fun c => (isWordChar c || c == '_') && !(c == '/') && !(c == '\\') &&
          !(c == '.') && !(isPythonSpace c))) = true) ∧
    sanitize_filename "" = "" ∧
    sanitize_filename "  trip " = "trip" ∧
    sanitize_filename "a \t- -b" = "a_b" ∧
    sanitize_filename "../../etc" = "etc" := by
  refine ⟨?_, rfl, rfl, rfl, rfl⟩
  intro name
  rw [List.all_eq_true]
  intro c hc
  exact safe_char_all c (sanitize_filename_chars name c hc)

/-- C3: contrary to the claim, the `start_upload` handler performs no
extension validation at all: it creates a session for every filename,
including `notes.txt` whose extension is outside the allow-list (the
`is_allowed_file` helper exists in the code but is never called by
`start_upload`). -/
theorem start_upload_skips_extension_check :
    is_allowed_file "notes.txt" = false ∧
    (start_upload initialState "notes.txt" 2 "g" "s3" 0).1.sessions "s3" =
      some { filename := some "notes.txt", guest := some "g", total_chunks := 2,
             received_chunks := ∅, created_at := 0 } := by
  exact ⟨rfl, rfl⟩

/-- C2 counterexample: calling `upload_chunk` with an upload id that was
never passed to `start_upload` does NOT fail with `sessionNotFound`: it
writes the chunk to disk, implicitly creates a registry entry, and reports
progress. -/
theorem upload_chunk_unknown_session_counterexample :
    (upload_chunk initialState "ghost" 0 (Blob.gzipped [1, 2]) 3 9).1.chunks "ghost" 0 =
      some (Blob.gzipped [1, 2]) ∧
    (upload_chunk initialState "ghost" 0 (Blob.gzipped [1, 2]) 3 9).1.sessions "ghost" =
      some { filename := none, guest := none, total_chunks := 3,
             received_chunks := {0}, created_at := 9 } ∧
    (upload_chunk initialState "ghost" 0 (Blob.gzipped [1, 2]) 3 9).2 =
      { upload_id := "ghost", chunk := 0, received := 1, total := 3 } := by
  exact ⟨rfl, by decide, rfl⟩

/-- C2 (amended): for every sessionId unknown to the registry,
`upload_chunk` succeeds rather than failing: it writes the chunk to the
chunk store and implicitly creates a registry entry containing only
`total_chunks`, `received_chunks` and `created_at` (no filename, no guest),
reporting `received = 1`. -/
theorem upload_chunk_unknown_session_creates (st : ServerState) (upload_id : String)
    (idx : Nat) (b : Blob) (tc now : Nat)
    (h : st.sessions upload_id = none) :
    (upload_chunk st upload_id idx b tc now).1.sessions upload_id =
      some { filename := none, guest := none, total_chunks := tc,
             received_chunks := insert idx ∅, created_at := now } ∧
    (upload_chunk st upload_id idx b tc now).1.chunks upload_id idx = some b ∧
    (upload_chunk st upload_id idx b tc now).2 =
      { upload_id := upload_id, chunk := idx, received := 1, total := tc } := by
  refine ⟨upload_chunk_sessions_none st upload_id idx b tc now h, ?_, ?_⟩
  · rw [upload_chunk_chunks]
    simp
  · simp [upload_chunk, save_chunk, h]

/-- Witness for the amended C2 theorem at a concrete input. -/
theorem upload_chunk_unknown_session_creates_witness :
    initialState.sessions "ghost2" = none ∧
    ((upload_chunk initialState "ghost2" 1 (Blob.gzipped [5]) 4 3).1.sessions "ghost2" =
      some { filename := none, guest := none, total_chunks := 4,
             received_chunks := insert 1 ∅, created_at := 3 } ∧
     (upload_chunk initialState "ghost2" 1 (Blob.gzipped [5]) 4 3).1.chunks "ghost2" 1 =
      some (Blob.gzipped [5]) ∧
     (upload_chunk initialState "ghost2" 1 (Blob.gzipped [5]) 4 3).2 =
      { upload_id := "ghost2", chunk := 1, received := 1, total := 4 }) :=
  ⟨rfl, upload_chunk_unknown_session_creates initialState "ghost2" 1 (Blob.gzipped [5]) 4 3 rfl⟩

/-- C6: repeating `upload_chunk` for the same session and the same index
(with the same bytes) any number of times is idempotent with respect to
progress: the `received` count returned after any number `k` of extra
repeats equals the count returned by the first call. -/
theorem upload_chunk_repeat_received (st : ServerState) (upload_id : String)
    (idx : Nat) (b : Blob) (tc now : Nat) (k : Nat) :
    (upload_chunk
        (Nat.iterate (fun s2 => (upload_chunk s2 upload_id idx b tc now).1) k
          (upload_chunk st upload_id idx b tc now).1)
        upload_id idx b tc now).2.received =
      (upload_chunk st upload_id idx b tc now).2.received := by
  obtain ⟨s₁, hs₁, hmem, hrec⟩ :
      ∃ s₁, (upload_chunk st upload_id idx b tc now).1.sessions upload_id = some s₁ ∧
        idx ∈ s₁.received_chunks ∧
        (upload_chunk st upload_id idx b tc now).2.received = s₁.received_chunks.card := by
    cases h : st.sessions upload_id with
    | some s =>
      refine ⟨{ s with received_chunks := insert idx s.received_chunks },
        upload_chunk_sessions_some st upload_id idx b tc now s h,
        Finset.mem_insert_self idx _, ?_⟩
      simp [upload_chunk, save_chunk, h]
    | none =>
      refine ⟨{ filename := none, guest := none, total_chunks := tc,
                received_chunks := insert idx ∅, created_at := now },
        upload_chunk_sessions_none st upload_id idx b tc now h,
        Finset.mem_insert_self idx _, ?_⟩
      simp [upload_chunk, save_chunk, h]
  have hiter : ∀ (m : Nat) (st2 : ServerState), st2.sessions upload_id = some s₁ →
      (Nat.iterate (fun s2 => (upload_chunk s2 upload_id idx b tc now).1) m st2).sessions
        upload_id = some s₁ := by
    intro m
    induction m with
    | zero => intro st2 h2; exact h2
    | succ m ih =>
      intro st2 h2
      rw [Function.iterate_succ_apply]
      exact ih _ (upload_chunk_sessions_point st2 upload_id idx b tc now s₁ h2 hmem).1
  rw [hrec]
  exact (upload_chunk_sessions_point _ upload_id idx b tc now s₁ (hiter k _ hs₁) hmem).2

end QRUpload

namespace QRUpload

lemma uploadSeq_complete_gzip_ok (st : ServerState) (upload_id fn g : String)
    (N now now2 : Nat) (π : Nat → List Nat) (perm : List Nat)
    (hperm : perm.Perm (List.range N)) :
    (complete_upload
        (uploadSeq upload_id N now2 (fun i => Blob.gzipped (π i))
          ((start_upload st fn N g upload_id now).1) perm)
        upload_id).2 =
      .ok { path := pathJoin (pathJoin UPLOAD_DIR (sanitize_filename g)) (basename fn),
            size := (((List.range N).map π).flatten).length } ∧
    (complete_upload
        (uploadSeq upload_id N now2 (fun i => Blob.gzipped (π i))
          ((start_upload st fn N g upload_id now).1) perm)
        upload_id).1.files (sanitize_filename g) (basename fn) =
      some (((List.range N).map π).flatten) := by
  set st0 := (start_upload st fn N g upload_id now).1 with hst0
  set st1 := uploadSeq upload_id N now2 (fun i => Blob.gzipped (π i)) st0 perm with hst1
  have hs0 : st0.sessions upload_id =
      some { filename := some fn, guest := some g, total_chunks := N,
             received_chunks := ∅, created_at := now } := by
    rw [hst0]
    simp [start_upload]
  have hs1 : st1.sessions upload_id =
      some { filename := some fn, guest := some g, total_chunks := N,
             received_chunks := ∅ ∪ perm.toFinset, created_at := now } := by
    rw [hst1]
    exact uploadSeq_sessions_some upload_id N now2 _ perm st0 _ hs0
  have hc : ∀ i, i <
      (Session.mk (some fn) (some g) N (∅ ∪ perm.toFinset) now).total_chunks →
      st1.chunks upload_id i = some (Blob.gzipped (π i)) := by
    intro i hi
    rw [hst1, uploadSeq_chunks]
    exact if_pos ⟨rfl, (hperm.mem_iff).mpr (List.mem_range.mpr hi)⟩
  rw [complete_upload_eq_assemble st1 upload_id fn g _ hs1 rfl rfl,
    assemble_file_gzip_success st1 upload_id fn g _ π hs1 hc]
  dsimp only
  exact ⟨rfl, by simp⟩

end QRUpload

namespace QRUpload

/-- C5 counterexample: with `declaredTotalChunks = 2`, uploading indices
`1` and `2` — i.e. every index of `[1..N]`, each exactly once — and then
calling complete does not produce the assembled file: the completeness check
runs over the 0-based `range(total_chunks)`, reports index `0` missing, and
no destination file is created. -/
theorem one_based_upload_counterexample :
    ((complete_upload
        (uploadSeq "x5" 2 7 (fun i => Blob.gzipped [i + 10])
          ((start_upload initialState "a.jpg" 2 "g" "x5" 5).1) [1, 2])
        "x5").2 =
      .error (.serverError (.missingChunks [0]))) ∧
    ((complete_upload
        (uploadSeq "x5" 2 7 (fun i => Blob.gzipped [i + 10])
          ((start_upload initialState "a.jpg" 2 "g" "x5" 5).1) [1, 2])
        "x5").1.files (sanitize_filename "g") (basename "a.jpg") = none) := by
  exact ⟨rfl, rfl⟩

/-- C5 (amended): chunk indices are 0-based.  For every session started with
`declaredTotalChunks = N`, uploading chunk `i` as a gzip stream of payload
`π i` exactly once for every index in `[0..N-1]`, in any arrival
permutation, and then calling complete, produces a final file byte-for-byte
equal to the concatenation of the decompressed chunk payloads in ascending
index order. -/
theorem upload_perm_complete_concat (st : ServerState) (upload_id fn g : String)
    (N now now2 : Nat) (π : Nat → List Nat) (perm : List Nat)
    (hperm : perm.Perm (List.range N)) :
    (complete_upload
        (uploadSeq upload_id N now2 (fun i => Blob.gzipped (π i))
          ((start_upload st fn N g upload_id now).1) perm)
        upload_id).2 =
      .ok { path := pathJoin (pathJoin UPLOAD_DIR (sanitize_filename g)) (basename fn),
            size := (((List.range N).map π).flatten).length } ∧
    (complete_upload
        (uploadSeq upload_id N now2 (fun i => Blob.gzipped (π i))
          ((start_upload st fn N g upload_id now).1) perm)
        upload_id).1.files (sanitize_filename g) (basename fn) =
      some (((List.range N).map π).flatten) :=
  uploadSeq_complete_gzip_ok st upload_id fn g N now now2 π perm hperm

/-- Witness for the amended C5 theorem: a 2-chunk session uploaded in the
arrival order `[1, 0]`. -/
theorem upload_perm_complete_concat_witness :
    [1, 0].Perm (List.range 2) ∧
    ((complete_upload
        (uploadSeq "w5" 2 7 (fun i => Blob.gzipped [i + 10])
          ((start_upload initialState "trip.jpg" 2 "Jane Doe" "w5" 5).1) [1, 0])
        "w5").2 =
      .ok { path := pathJoin (pathJoin UPLOAD_DIR (sanitize_filename "Jane Doe"))
              (basename "trip.jpg"),
            size := (((List.range 2).map (fun i => [i + 10])).flatten).length } ∧
     (complete_upload
        (uploadSeq "w5" 2 7 (fun i => Blob.gzipped [i + 10])
          ((start_upload initialState "trip.jpg" 2 "Jane Doe" "w5" 5).1) [1, 0])
        "w5").1.files (sanitize_filename "Jane Doe") (basename "trip.jpg") =
      some (((List.range 2).map (fun i => [i + 10])).flatten)) :=
  ⟨by decide,
   upload_perm_complete_concat initialState "w5" "trip.jpg" "Jane Doe" 2 5 7
     (fun i => [i + 10]) [1, 0] (by decide)⟩

/-- C8: the code never consults `MAX_FILE_SIZE` — neither `save_chunk` nor
`assemble_file` checks any size — so a file whose total decompressed size
exceeds the 1GB limit is assembled into the final destination without any
rejection: here a single-chunk upload of `MAX_FILE_SIZE + 1` bytes completes
successfully. -/
theorem complete_ignores_max_file_size :
    ((complete_upload
        (uploadSeq "big" 1 0 (fun _ => Blob.gzipped (List.replicate (MAX_FILE_SIZE + 1) 0))
          ((start_upload initialState "movie.mp4" 1 "guest" "big" 0).1) [0])
        "big").2 =
      .ok { path := pathJoin (pathJoin UPLOAD_DIR (sanitize_filename "guest"))
              (basename "movie.mp4"),
            size := MAX_FILE_SIZE + 1 }) ∧
    MAX_FILE_SIZE < MAX_FILE_SIZE + 1 := by
  have h := uploadSeq_complete_gzip_ok initialState "big" "movie.mp4" "guest" 1 0 0
    (fun _ => List.replicate (MAX_FILE_SIZE + 1) 0) [0] (by decide)
  have hlen : (((List.range 1).map
      (fun _ => List.replicate (MAX_FILE_SIZE + 1) (0 : Nat))).flatten).length =
      MAX_FILE_SIZE + 1 := by
    have hr : List.range 1 = [0] := rfl
    simp [hr]
  constructor
  · rw [h.1, hlen]
  · exact Nat.lt_succ_self _

end QRUpload

namespace QRUpload

/-- C1 counterexample: `complete` on a session with a missing chunk does
fail with an error listing the missing index, but — contrary to the claim —
the already-uploaded chunk `0` is deleted and the session is removed from
the registry, so the chunks are not retrievable afterward and the session is
not open for retry. -/
theorem complete_missing_counterexample :
    ((complete_upload
        (uploadSeq "x1" 2 7 (fun _ => Blob.gzipped [9])
          ((start_upload initialState "trip.jpg" 2 "Jane" "x1" 5).1) [0])
        "x1").2 =
      .error (.serverError (.missingChunks [1]))) ∧
    ((complete_upload
        (uploadSeq "x1" 2 7 (fun _ => Blob.gzipped [9])
          ((start_upload initialState "trip.jpg" 2 "Jane" "x1" 5).1) [0])
        "x1").1.chunks "x1" 0 = none) ∧
    ((complete_upload
        (uploadSeq "x1" 2 7 (fun _ => Blob.gzipped [9])
          ((start_upload initialState "trip.jpg" 2 "Jane" "x1" 5).1) [0])
        "x1").1.sessions "x1" = none) := by
  exact ⟨rfl, rfl, rfl⟩

/-- C1 (amended): `complete` called on a session with one or more chunk
indices missing on disk fails with a 500 error wrapping the missing-chunks
message that lists exactly the missing indices; but the session does NOT
remain open: the blanket `except` in `complete_upload` purges the chunk
directory and removes the registry entry, so the already-uploaded chunks are
no longer retrievable and a retry requires a brand-new session.  No
destination file is touched. -/
theorem complete_missing_reports_and_purges (st : ServerState) (upload_id fn g : String)
    (s : Session)
    (h : st.sessions upload_id = some s) (hf : s.filename = some fn)
    (hg : s.guest = some g)
    (hm : (List.range s.total_chunks).filter
      (fun i => (st.chunks upload_id i).isNone) ≠ []) :
    (complete_upload st upload_id).2 =
      .error (.serverError (.missingChunks
        ((List.range s.total_chunks).filter (fun i => (st.chunks upload_id i).isNone)))) ∧
    (complete_upload st upload_id).1.sessions upload_id = none ∧
    (∀ i, (complete_upload st upload_id).1.chunks upload_id i = none) ∧
    (∀ d f2, (complete_upload st upload_id).1.files d f2 = st.files d f2) := by
  rw [complete_upload_eq_assemble st upload_id fn g s h hf hg,
    assemble_file_missing_eq st upload_id fn g s h hm]
  dsimp only
  exact ⟨rfl, by simp [cleanupSession], fun i => by simp [cleanupSession],
    fun d f2 => rfl⟩

/-- Witness for the amended C1 theorem: a 2-chunk session with only chunk 0
uploaded. -/
theorem complete_missing_reports_and_purges_witness :
    ((uploadSeq "w1" 2 7 (fun _ => Blob.gzipped [9])
        ((start_upload initialState "trip.jpg" 2 "Jane" "w1" 5).1) [0]).sessions "w1" =
      some { filename := some "trip.jpg", guest := some "Jane", total_chunks := 2,
             received_chunks := insert 0 ∅, created_at := 5 }) ∧
    ((List.range 2).filter (fun i =>
      ((uploadSeq "w1" 2 7 (fun _ => Blob.gzipped [9])
        ((start_upload initialState "trip.jpg" 2 "Jane" "w1" 5).1) [0]).chunks
          "w1" i).isNone) ≠ []) ∧
    ((complete_upload
        (uploadSeq "w1" 2 7 (fun _ => Blob.gzipped [9])
          ((start_upload initialState "trip.jpg" 2 "Jane" "w1" 5).1) [0])
        "w1").2 =
      .error (.serverError (.missingChunks [1]))) ∧
    ((complete_upload
        (uploadSeq "w1" 2 7 (fun _ => Blob.gzipped [9])
          ((start_upload initialState "trip.jpg" 2 "Jane" "w1" 5).1) [0])
        "w1").1.sessions "w1" = none) ∧
    (∀ i, (complete_upload
        (uploadSeq "w1" 2 7 (fun _ => Blob.gzipped [9])
          ((start_upload initialState "trip.jpg" 2 "Jane" "w1" 5).1) [0])
        "w1").1.chunks "w1" i = none) := by
  have h := complete_missing_reports_and_purges
    (uploadSeq "w1" 2 7 (fun _ => Blob.gzipped [9])
      ((start_upload initialState "trip.jpg" 2 "Jane" "w1" 5).1) [0])
    "w1" "trip.jpg" "Jane"
    { filename := some "trip.jpg", guest := some "Jane", total_chunks := 2,
      received_chunks := insert 0 ∅, created_at := 5 }
    rfl rfl rfl (by decide)
  exact ⟨rfl, by decide, h.1, h.2.1, h.2.2.1⟩

/-- C4 counterexample: a session whose single chunk is raw (non-gzip) bytes
`[1, 2, 3]` is not appended unchanged — contrary to the claim, assembly
unconditionally gunzips the chunk, fails with a 500 error, and produces no
destination file. -/
theorem assemble_raw_chunk_counterexample :
    ((complete_upload
        (uploadSeq "x4" 1 0 (fun _ => Blob.rawNonGzip [1, 2, 3])
          ((start_upload initialState "a.jpg" 1 "g" "x4" 0).1) [0])
        "x4").2 =
      .error (.serverError .assemblyFailed)) ∧
    ((complete_upload
        (uploadSeq "x4" 1 0 (fun _ => Blob.rawNonGzip [1, 2, 3])
          ((start_upload initialState "a.jpg" 1 "g" "x4" 0).1) [0])
        "x4").1.files (sanitize_filename "g") (basename "a.jpg") = none) := by
  exact ⟨rfl, rfl⟩

/-- C4 (amended): during assembly every chunk is unconditionally gunzipped;
no magic-byte inspection selects between raw and compressed chunks.  A
gzip-compressed chunk is decompressed before being appended, but if all
chunks are present and any one of them is not a valid gzip stream, `complete`
fails with a 500 assembly error, no destination file is produced (any file
previously at the destination path is removed), and the session is purged. -/
theorem complete_raw_chunk_fails (st : ServerState) (upload_id fn g : String)
    (s : Session) (j : Nat) (bs : List Nat)
    (h : st.sessions upload_id = some s) (hf : s.filename = some fn)
    (hg : s.guest = some g)
    (hall : ∀ i, i < s.total_chunks → (st.chunks upload_id i).isSome = true)
    (hj : j < s.total_chunks)
    (hraw : st.chunks upload_id j = some (Blob.rawNonGzip bs)) :
    (complete_upload st upload_id).2 = .error (.serverError .assemblyFailed) ∧
    (complete_upload st upload_id).1.files (sanitize_filename g) (basename fn) = none ∧
    (complete_upload st upload_id).1.sessions upload_id = none := by
  rw [complete_upload_eq_assemble st upload_id fn g s h hf hg,
    assemble_file_raw_fails st upload_id fn g s j bs h hall hj hraw]
  dsimp only
  refine ⟨rfl, ?_, ?_⟩
  · simp [cleanupSession]
  · simp [cleanupSession]

/-- Witness for the amended C4 theorem: a complete 1-chunk session whose
chunk 0 holds raw non-gzip bytes. -/
theorem complete_raw_chunk_fails_witness :
    ((uploadSeq "w4" 1 0 (fun _ => Blob.rawNonGzip [1, 2, 3])
        ((start_upload initialState "a.jpg" 1 "g" "w4" 0).1) [0]).sessions "w4" =
      some { filename := some "a.jpg", guest := some "g", total_chunks := 1,
             received_chunks := insert 0 ∅, created_at := 0 }) ∧
    (∀ i, i < 1 →
      (((uploadSeq "w4" 1 0 (fun _ => Blob.rawNonGzip [1, 2, 3])
        ((start_upload initialState "a.jpg" 1 "g" "w4" 0).1) [0]).chunks
          "w4" i).isSome = true)) ∧
    ((uploadSeq "w4" 1 0 (fun _ => Blob.rawNonGzip [1, 2, 3])
        ((start_upload initialState "a.jpg" 1 "g" "w4" 0).1) [0]).chunks "w4" 0 =
      some (Blob.rawNonGzip [1, 2, 3])) ∧
    ((complete_upload
        (uploadSeq "w4" 1 0 (fun _ => Blob.rawNonGzip [1, 2, 3])
          ((start_upload initialState "a.jpg" 1 "g" "w4" 0).1) [0])
        "w4").2 = .error (.serverError .assemblyFailed)) ∧
    ((complete_upload
        (uploadSeq "w4" 1 0 (fun _ => Blob.rawNonGzip [1, 2, 3])
          ((start_upload initialState "a.jpg" 1 "g" "w4" 0).1) [0])
        "w4").1.files (sanitize_filename "g") (basename "a.jpg") = none) := by
  have h := complete_raw_chunk_fails
    (uploadSeq "w4" 1 0 (fun _ => Blob.rawNonGzip [1, 2, 3])
      ((start_upload initialState "a.jpg" 1 "g" "w4" 0).1) [0])
    "w4" "a.jpg" "g"
    { filename := some "a.jpg", guest := some "g", total_chunks := 1,
      received_chunks := insert 0 ∅, created_at := 0 }
    0 [1, 2, 3] rfl rfl rfl (by decide) (by decide) rfl
  exact ⟨rfl, by decide, rfl, h.1, h.2.1⟩

/-- C7: after `complete` returns for an existing session — whatever the
outcome: key-error on an implicit session, missing chunks, assembly failure,
or success — the session's chunk directory has been purged and its registry
entry removed: no chunk file and no session metadata remains for that
upload id. -/
theorem complete_always_purges (st : ServerState) (upload_id : String) (s : Session)
    (h : st.sessions upload_id = some s) :
    (complete_upload st upload_id).1.sessions upload_id = none ∧
    ∀ i, (complete_upload st upload_id).1.chunks upload_id i = none := by
  unfold complete_upload
  rw [h]
  dsimp only
  cases hfn : s.filename with
  | none =>
    exact ⟨by simp [cleanupSession], fun i => by simp [cleanupSession]⟩
  | some fn =>
    dsimp only
    cases hgg : s.guest with
    | none =>
      exact ⟨by simp [cleanupSession], fun i => by simp [cleanupSession]⟩
    | some g =>
      dsimp only
      rcases hA : assemble_file st upload_id fn g with ⟨st2, r⟩
      cases r with
      | error e =>
        dsimp only
        exact ⟨by simp [cleanupSession], fun i => by simp [cleanupSession]⟩
      | ok rr =>
        dsimp only
        exact assemble_file_ok_purged st upload_id fn g st2 rr hA

/-- Witness for the C7 theorem: completing a fresh session with no uploaded
chunks (the failing path) still purges it. -/
theorem complete_always_purges_witness :
    ((start_upload initialState "b.png" 1 "g" "w7" 0).1.sessions "w7" =
      some { filename := some "b.png", guest := some "g", total_chunks := 1,
             received_chunks := ∅, created_at := 0 }) ∧
    ((complete_upload (start_upload initialState "b.png" 1 "g" "w7" 0).1
        "w7").1.sessions "w7" = none) ∧
    (∀ i, (complete_upload (start_upload initialState "b.png" 1 "g" "w7" 0).1
        "w7").1.chunks "w7" i = none) := by
  have h := complete_always_purges (start_upload initialState "b.png" 1 "g" "w7" 0).1
    "w7"
    { filename := some "b.png", guest := some "g", total_chunks := 1,
      received_chunks := ∅, created_at := 0 }
    rfl
  exact ⟨rfl, h.1, h.2⟩

/-- C10: uploading chunks under an upload id that was never passed to
`start_upload` implicitly creates a registry entry with no `filename` and no
`guest` key; a subsequent `complete` on that session — even with every
declared chunk present on disk — always fails with the 500 wrapping the
`KeyError` on `filename`, and never produces a destination file. -/
theorem implicit_session_complete_keyerror (st : ServerState) (upload_id : String)
    (tc now : Nat) (β : Nat → Blob) (L : List Nat)
    (h : st.sessions upload_id = none) (hL : L ≠ []) :
    (complete_upload (uploadSeq upload_id tc now β st L) upload_id).2 =
      .error (.serverError (.keyError "filename")) ∧
    ∀ d f2, (complete_upload (uploadSeq upload_id tc now β st L) upload_id).1.files d f2 =
      st.files d f2 := by
  have hs := uploadSeq_sessions_none upload_id tc now β L st h hL
  unfold complete_upload
  rw [hs]
  dsimp only
  exact ⟨rfl, fun d f2 => by simp [cleanupSession, uploadSeq_files]⟩

/-- Witness for the C10 theorem: both declared chunks uploaded to a
never-started session, then `complete`. -/
theorem implicit_session_complete_keyerror_witness :
    (initialState.sessions "w10" = none) ∧
    (([0, 1] : List Nat) ≠ []) ∧
    ((complete_upload
        (uploadSeq "w10" 2 3 (fun i => Blob.gzipped [i]) initialState [0, 1])
        "w10").2 = .error (.serverError (.keyError "filename"))) ∧
    (∀ d f2, (complete_upload
        (uploadSeq "w10" 2 3 (fun i => Blob.gzipped [i]) initialState [0, 1])
        "w10").1.files d f2 = initialState.files d f2) := by
  have h := implicit_session_complete_keyerror initialState "w10" 2 3
    (fun i => Blob.gzipped [i]) [0, 1] rfl (by decide)
  exact ⟨rfl, by decide, h.1, h.2⟩

end QRUpload
